import Mathlib

/-!
Shallow embedding of the aggregation-and-scoring engine of
`src/backend/main.py` from the attention-drift-detector repository.

Conventions used throughout:
* Python floats are modelled as rationals (`ℚ`).  All arithmetic the engine
  performs is field arithmetic except `math.sqrt`, which is irrational on
  `ℚ`; it is therefore passed around as an abstract function
  `sqrtQ : ℚ → ℚ` (the engine only reaches it through
  `statistics.pstdev`).  Rationals carry no NaN, so the `isnan` guards of
  the normalization functions are vacuous in this embedding.
* A stored event is a JSON object; a possibly absent or null field is an
  `Option` field, with `none` modelling both JSON null and an absent key.
* Python dict access `e["k"]`, which raises `KeyError` when the key is
  absent, is modelled by an `Option`-valued lookup whose failure is
  propagated into the `Except` result of the summary computation.
-/

namespace AttentionDrift

/-- One stored event record as read back from `data.json`.  Field presence
(`isSome`) models key presence in the JSON object.  `session_id` is omitted
because the engine receives the list already filtered to a single session
(`get_events_by_session` in `data_store.py`). -/
structure Event where
  segment_id : Option Int := none
  text_length : Option Int := none
  question_index : Option Int := none
  exercise_id : Option String := none
  reading_time_ms : Option ℚ := none
  reaction_time_ms : Option ℚ := none
  is_correct : Option Bool := none
  total_time_ms : Option ℚ := none
  first_key_delay_ms : Option ℚ := none
  typing_duration_ms : Option ℚ := none
  code_length : Option ℚ := none
  starter_code_length : Option ℚ := none
  client_timestamp_ms : Option ℚ := none
  chosen_option_index : Option Int := none
  deriving Repr, DecidableEq

/-- Result record of `compute_basic_stats` (`main.py` lines 46-71). -/
structure BasicStats where
  count : Nat
  avg_ms : Option ℚ
  std_ms : Option ℚ
  min_ms : Option ℚ
  max_ms : Option ℚ
  deriving Repr, DecidableEq

/-- Arithmetic mean, `statistics.mean`.  Every call site in `main.py`
guards against the empty list (where Python would raise), so totalising
with the junk value `0` on `[]` is unobservable. -/
def mean (xs : List ℚ) : ℚ := xs.sum / xs.length

/-- Population variance, the radicand of `statistics.pstdev`: the sum of
squared deviations from the mean divided by `N` (not `N - 1`). -/
def pvariance (xs : List ℚ) : ℚ :=
  ((xs.map (fun x => (x - mean xs) ^ 2)).sum) / xs.length

/-- Population standard deviation, `statistics.pstdev`; `sqrtQ` abstracts
`math.sqrt`. -/
def pstdev (sqrtQ : ℚ → ℚ) (xs : List ℚ) : ℚ := sqrtQ (pvariance xs)

/-- Python builtin `min` over a non-empty list (`0` on `[]`, never hit). -/
def listMin : List ℚ → ℚ
  | [] => 0
  | x :: xs => xs.foldl min x

/-- Python builtin `max` over a non-empty list (`0` on `[]`, never hit). -/
def listMax : List ℚ → ℚ
  | [] => 0
  | x :: xs => xs.foldl max x

/-- The all-null statistics record returned for an empty value list
(`main.py` lines 51-58, repeated literally at lines 373-379, 401-407 and
436-442). -/
def emptyStats : BasicStats :=
  { count := 0, avg_ms := none, std_ms := none, min_ms := none, max_ms := none }

/-- `compute_basic_stats` from `main.py` lines 46-71. -/
def compute_basic_stats (sqrtQ : ℚ → ℚ) (values : List ℚ) : BasicStats :=
  if values = [] then emptyStats
  else
    { count := values.length
      avg_ms := some (mean values)
      std_ms := some (if 1 < values.length then pstdev sqrtQ values else 0)
      min_ms := some (listMin values)
      max_ms := some (listMax values) }

/-- `normalize_inverse` from `main.py` lines 135-150: smaller is better,
clamped linear interpolation onto `[0,1]`, neutral `1/2` on a null input. -/
def normalize_inverse (value : Option ℚ) (good_low bad_high : ℚ) : ℚ :=
  match value with
  | none => 1/2
  | some v =>
    if v ≤ good_low then 1
    else if bad_high ≤ v then 0
    else 1 - (v - good_low) / (bad_high - good_low)

/-- `normalize_direct` from `main.py` lines 153-167: larger is better,
clamped linear interpolation onto `[0,1]`, neutral `1/2` on a null input. -/
def normalize_direct (value : Option ℚ) (bad_low good_high : ℚ) : ℚ :=
  match value with
  | none => 1/2
  | some v =>
    if v ≤ bad_low then 0
    else if good_high ≤ v then 1
    else (v - bad_low) / (good_high - bad_low)

/-- `safe_cv` from `main.py` lines 170-177: coefficient of variation with a
null guard on a missing or non-positive mean and on a missing std. -/
def safe_cv (avg std : Option ℚ) : Option ℚ :=
  match avg, std with
  | some a, some s => if a ≤ 0 then none else some (s / a)
  | _, _ => none

/-- Sort key of the reaction trend: `e.get("question_index", 0)`
(`main.py` line 218). -/
def qKey (e : Event) : Int := e.question_index.getD 0

/-- Stable insertion of an event after all current entries whose key is not
larger; folding it over the list from the left yields the same list as the
stable Python `sorted(..., key=...)` of `main.py` line 217. -/
def insertByQKey (e : Event) : List Event → List Event
  | [] => [e]
  | x :: xs => if qKey x ≤ qKey e then x :: insertByQKey e xs else e :: x :: xs

/-- The reaction event list sorted by `question_index` (stable, default key
`0`), `main.py` lines 217-219. -/
def sortByQI (events : List Event) : List Event :=
  events.foldl (fun acc e => insertByQKey e acc) []

/-- The reaction times of the sorted reaction events that carry one
(`main.py` lines 220-224). -/
def timedValues (reaction_events : List Event) : List ℚ :=
  (sortByQI reaction_events).filterMap (fun e => e.reaction_time_ms)

/-- The first-versus-second-half drift component of the reaction score,
`main.py` lines 212-239. -/
def trendComponent (reaction_events : List Event) : ℚ :=
  if 4 ≤ reaction_events.length then
    let times := timedValues reaction_events
    if 4 ≤ times.length then
      let mid := times.length / 2
      let first_half := times.take mid
      let second_half := times.drop mid
      if first_half ≠ [] ∧ second_half ≠ [] ∧ 0 < mean first_half then
        normalize_inverse (some |mean second_half / mean first_half - 1|) (1/10) (6/10)
      else 1/2
    else 1/2
  else 1/2

/-- Count of events whose `is_correct` field is literally `True`
(`main.py` lines 204, 351, 409, 467). -/
def countCorrect (events : List Event) : Nat :=
  events.countP (fun e => e.is_correct == some true)

/-- Fraction of correct events, or null when there are none (`main.py`
lines 203-207 and 350-354 compute the same value). -/
def reactionAccuracy (reaction_events : List Event) : Option ℚ :=
  if reaction_events ≠ [] then
    some ((countCorrect reaction_events : ℚ) / (reaction_events.length : ℚ))
  else none

/-- The typing-rate sample of a single code submission event, or `none`
when it is excluded (`main.py` lines 383-396 loop body; identically at
lines 446-459). -/
def typingRate (e : Event) : Option ℚ :=
  match e.typing_duration_ms, e.code_length, e.starter_code_length with
  | some td, some cl, some sl =>
    if 0 < td then
      if 0 < cl - sl then some ((cl - sl) / (td / 1000)) else none
    else none
  | _, _, _ => none

/-- All included typing-rate samples of a code event list, in order
(`main.py` lines 382-396). -/
def typingRates (events : List Event) : List ℚ := events.filterMap typingRate

/-- Per-exercise breakdown record (`main.py` lines 472-478). -/
structure PerExercise where
  count_submissions : Nat
  success_rate : Option ℚ
  avg_total_time_ms : Option ℚ
  avg_first_key_delay_ms : Option ℚ
  avg_typing_rate_chars_per_sec : Option ℚ
  deriving Repr, DecidableEq

/-- The code-task summary record (`main.py` lines 480-497).  In the
zero-submission branch the source dict simply has no
`avg_typing_rate_chars_per_sec` key, so the later `dict.get` yields
`None`; this is modelled by the field being `none` in that branch. -/
structure CodeSummary where
  count_submissions : Nat
  success_rate : Option ℚ
  avg_total_time_ms : Option ℚ
  std_total_time_ms : Option ℚ
  avg_first_key_delay_ms : Option ℚ
  avg_typing_rate_chars_per_sec : Option ℚ
  per_exercise : List (String × PerExercise)
  deriving Repr, DecidableEq

/-- One step of grouping: append the event to the bucket of its key,
creating the bucket at the end on first sight; models
`by_ex.setdefault(ex_id, []).append(e)` (`main.py` lines 419-421),
which keeps buckets in first-seen key order. -/
def insertByKey (acc : List (String × List Event)) (k : String) (e : Event) :
    List (String × List Event) :=
  match acc with
  | [] => [(k, [e])]
  | (k2, es) :: rest =>
    if k2 = k then (k2, es ++ [e]) :: rest else (k2, es) :: insertByKey rest k e

/-- Group code events by `e.get("exercise_id", "unknown")`
(`main.py` lines 418-421). -/
def groupByEx (events : List Event) : List (String × List Event) :=
  events.foldl (fun acc e => insertByKey acc (e.exercise_id.getD "unknown") e) []

/-- Per-exercise statistics (`main.py` lines 423-478). -/
def buildPerExercise (sqrtQ : ℚ → ℚ) (ex_events : List Event) : PerExercise :=
  let ex_total_times := ex_events.filterMap (fun ev => ev.total_time_ms)
  let ex_first_key_delays := ex_events.filterMap (fun ev => ev.first_key_delay_ms)
  let ex_time_stats := compute_basic_stats sqrtQ ex_total_times
  let ex_first_key_stats :=
    if ex_first_key_delays ≠ [] then compute_basic_stats sqrtQ ex_first_key_delays
    else emptyStats
  let ex_typing_rates := typingRates ex_events
  let ex_avg_typing_rate :=
    if ex_typing_rates ≠ [] then (compute_basic_stats sqrtQ ex_typing_rates).avg_ms
    else none
  { count_submissions := ex_events.length
    success_rate :=
      if ex_events ≠ [] then
        some ((countCorrect ex_events : ℚ) / (ex_events.length : ℚ))
      else none
    avg_total_time_ms := ex_time_stats.avg_ms
    avg_first_key_delay_ms := ex_first_key_stats.avg_ms
    avg_typing_rate_chars_per_sec := ex_avg_typing_rate }

/-- The code-task aggregation of `get_summary` (`main.py` lines 356-497,
both the populated branch and the empty-session-code branch). -/
def buildCodeSummary (sqrtQ : ℚ → ℚ) (code_events : List Event) : CodeSummary :=
  if code_events = [] then
    { count_submissions := 0
      success_rate := none
      avg_total_time_ms := none
      std_total_time_ms := none
      avg_first_key_delay_ms := none
      avg_typing_rate_chars_per_sec := none
      per_exercise := [] }
  else
    let total_times := code_events.filterMap (fun e => e.total_time_ms)
    let first_key_delays := code_events.filterMap (fun e => e.first_key_delay_ms)
    let total_time_stats := compute_basic_stats sqrtQ total_times
    let first_key_stats :=
      if first_key_delays ≠ [] then compute_basic_stats sqrtQ first_key_delays
      else emptyStats
    let typing_rate_stats :=
      if typingRates code_events ≠ [] then
        compute_basic_stats sqrtQ (typingRates code_events)
      else emptyStats
    { count_submissions := code_events.length
      success_rate := some ((countCorrect code_events : ℚ) / (code_events.length : ℚ))
      avg_total_time_ms := total_time_stats.avg_ms
      std_total_time_ms := total_time_stats.std_ms
      avg_first_key_delay_ms := first_key_stats.avg_ms
      avg_typing_rate_chars_per_sec := typing_rate_stats.avg_ms
      per_exercise := (groupByEx code_events).map
        (fun p => (p.1, buildPerExercise sqrtQ p.2)) }

/-- The concentration profile record (`main.py` lines 302-316); the
`components` sub-dict is flattened into named fields. -/
structure Profile where
  overall_score : ℚ
  reading_score : ℚ
  reaction_score : ℚ
  code_score : ℚ
  reading_stability_cv : Option ℚ
  reaction_cv : Option ℚ
  reaction_accuracy : Option ℚ
  reaction_trend_component : ℚ
  code_success_rate : Option ℚ
  code_avg_typing_rate_chars_per_sec : Option ℚ
  comment : String
  deriving Repr, DecidableEq

/-- Tier comment for a high overall score (`main.py` line 280). -/
def highMsg : String :=
  "Your overall concentration score is high. Performance is generally stable across tasks."

/-- Tier comment for a moderate overall score (`main.py` line 282). -/
def midMsg : String :=
  "Your overall concentration score is moderate. There are some signs of variability that may reflect attention fluctuations."

/-- Tier comment for a low overall score (`main.py` line 284). -/
def lowMsg : String :=
  "Your overall concentration score is relatively low. There is noticeable variability in performance that may reflect difficulty maintaining stable attention."

/-- Weak-reading diagnostic sentence (`main.py` line 291). -/
def readingWeakMsg : String :=
  "Reading times are less stable compared to reaction and code tasks."

/-- Weak-reaction diagnostic sentence (`main.py` line 293). -/
def reactionWeakMsg : String :=
  "Reaction times show lower stability or accuracy compared to other tasks."

/-- Weak-code diagnostic sentence (`main.py` line 295). -/
def codeWeakMsg : String :=
  "Code-writing behavior (initiation or typing) appears less consistent than other tasks."

/-- Balanced-performance fallback sentence (`main.py` line 298). -/
def balancedMsg : String :=
  "No single task stands out as significantly weaker; performance is fairly balanced across tasks."

/-- The diagnostic sentence list built by the three independent threshold
checks plus the balanced fallback (`main.py` lines 286-298). -/
def detailSentences (reading_score reaction_score code_score : ℚ) : List String :=
  let d : List String := []
  let d := if reading_score + 10 < reaction_score ∧ reading_score + 10 < code_score
    then d ++ [readingWeakMsg] else d
  let d := if reaction_score + 10 < reading_score ∧ reaction_score + 10 < code_score
    then d ++ [reactionWeakMsg] else d
  let d := if code_score + 10 < reading_score ∧ code_score + 10 < reaction_score
    then d ++ [codeWeakMsg] else d
  if d = [] then [balancedMsg] else d

/-- Tier selection for the leading overall comment (`main.py`
lines 279-284). -/
def overallCommentFor (overall_score : ℚ) : String :=
  if 80 ≤ overall_score then highMsg
  else if 60 ≤ overall_score then midMsg
  else lowMsg

/-- Reading sub-score (`main.py` lines 192-196). -/
def readingScoreOf (reading_stats : BasicStats) : ℚ :=
  normalize_inverse (safe_cv reading_stats.avg_ms reading_stats.std_ms) (1/10) (7/10) * 100

/-- Reaction sub-score: equal mix of stability, accuracy and trend
components (`main.py` lines 198-243). -/
def reactionScoreOf (reaction_stats : BasicStats) (reaction_events : List Event) : ℚ :=
  (normalize_inverse (safe_cv reaction_stats.avg_ms reaction_stats.std_ms) (15/100) (8/10)
      + normalize_direct (reactionAccuracy reaction_events) (1/2) (9/10)
      + trendComponent reaction_events) / 3 * 100

/-- Initiation-stability component over the first-key delays of the code
events (`main.py` lines 255-266). -/
def initiationStability (sqrtQ : ℚ → ℚ) (code_events : List Event) : ℚ :=
  let delays := code_events.filterMap (fun e => e.first_key_delay_ms)
  if 1 < delays.length then
    normalize_inverse (some (pstdev sqrtQ delays)) 1500 6000
  else 1/2

/-- Code sub-score: equal mix of success, typing-rate and initiation
components (`main.py` lines 245-269). -/
def codeScoreOf (sqrtQ : ℚ → ℚ) (code_summary : CodeSummary) (code_events : List Event) : ℚ :=
  (normalize_direct code_summary.success_rate (3/10) (9/10)
      + normalize_direct code_summary.avg_typing_rate_chars_per_sec 2 12
      + initiationStability sqrtQ code_events) / 3 * 100

/-- `compute_concentration_profile` from `main.py` lines 179-316. -/
def compute_concentration_profile (sqrtQ : ℚ → ℚ)
    (reading_stats reaction_stats : BasicStats)
    (reaction_events : List Event)
    (code_summary : CodeSummary)
    (code_events : List Event) : Profile :=
  let reading_score := readingScoreOf reading_stats
  let reaction_score := reactionScoreOf reaction_stats reaction_events
  let code_score := codeScoreOf sqrtQ code_summary code_events
  let overall_score := 3/10 * reading_score + 4/10 * reaction_score + 3/10 * code_score
  { overall_score := overall_score
    reading_score := reading_score
    reaction_score := reaction_score
    code_score := code_score
    reading_stability_cv := safe_cv reading_stats.avg_ms reading_stats.std_ms
    reaction_cv := safe_cv reaction_stats.avg_ms reaction_stats.std_ms
    reaction_accuracy := reactionAccuracy reaction_events
    reaction_trend_component := trendComponent reaction_events
    code_success_rate := code_summary.success_rate
    code_avg_typing_rate_chars_per_sec := code_summary.avg_typing_rate_chars_per_sec
    comment := overallCommentFor overall_score ++ " " ++
      String.intercalate " " (detailSentences reading_score reaction_score code_score) }

/-- Reading section of the response (`main.py` lines 510-516). -/
structure ReadingSummary where
  count_segments : Nat
  avg_reading_time_ms : Option ℚ
  std_reading_time_ms : Option ℚ
  min_reading_time_ms : Option ℚ
  max_reading_time_ms : Option ℚ
  deriving Repr, DecidableEq

/-- Reaction section of the response (`main.py` lines 517-524). -/
structure ReactionSummary where
  count_questions : Nat
  avg_reaction_time_ms : Option ℚ
  std_reaction_time_ms : Option ℚ
  min_reaction_time_ms : Option ℚ
  max_reaction_time_ms : Option ℚ
  accuracy : Option ℚ
  deriving Repr, DecidableEq

/-- The full summary response (`main.py` lines 508-527); `session_id` is a
pass-through of the input and is omitted. -/
structure Summary where
  reading : ReadingSummary
  reaction : ReactionSummary
  code : CodeSummary
  concentration : Profile
  deriving Repr, DecidableEq

/-- Detail string of the 404 raised on an empty session
(`main.py` line 331). -/
def noEventsDetail : String := "No events for this session_id"

/-- Marker for the unhandled `KeyError` raised by the unguarded reading
time extraction (`main.py` line 339). -/
def readingKeyError : String := "KeyError: reading_time_ms"

/-- The reading-time extraction `[e["reading_time_ms"] for e in
reading_events]` (`main.py` line 339): unlike the reaction and code
extractions it has no key-presence guard, so one absent key fails the
whole computation. -/
def readAll : List Event → Option (List ℚ)
  | [] => some []
  | e :: rest =>
    match e.reading_time_ms, readAll rest with
    | some t, some ts => some (t :: ts)
    | _, _ => none

/-- Everything `get_summary` does after the reading-time extraction has
succeeded (`main.py` lines 340-527). -/
def buildSummary (sqrtQ : ℚ → ℚ) (events : List Event) (reading_times : List ℚ) : Summary :=
  let reaction_events := events.filter (fun e => e.question_index.isSome)
  let code_events := events.filter (fun e => e.exercise_id.isSome)
  let reading_stats := compute_basic_stats sqrtQ reading_times
  let reaction_times := reaction_events.filterMap (fun e => e.reaction_time_ms)
  let reaction_stats := compute_basic_stats sqrtQ reaction_times
  let code_summary := buildCodeSummary sqrtQ code_events
  { reading :=
      { count_segments := reading_stats.count
        avg_reading_time_ms := reading_stats.avg_ms
        std_reading_time_ms := reading_stats.std_ms
        min_reading_time_ms := reading_stats.min_ms
        max_reading_time_ms := reading_stats.max_ms }
    reaction :=
      { count_questions := reaction_stats.count
        avg_reaction_time_ms := reaction_stats.avg_ms
        std_reaction_time_ms := reaction_stats.std_ms
        min_reaction_time_ms := reaction_stats.min_ms
        max_reaction_time_ms := reaction_stats.max_ms
        accuracy := reactionAccuracy reaction_events }
    code := code_summary
    concentration := compute_concentration_profile sqrtQ
      reading_stats reaction_stats reaction_events code_summary code_events }

/-- `get_summary` from `main.py` lines 319-529, as the pure function of the
already-filtered event list of one session.  The two failure modes are the
explicit 404 on an empty session and the `KeyError` escaping from the
unguarded reading-time extraction. -/
def get_summary (sqrtQ : ℚ → ℚ) (events : List Event) : Except String Summary :=
  if events = [] then Except.error noEventsDetail
  else
    match readAll (events.filter (fun e => e.segment_id.isSome)) with
    | none => Except.error readingKeyError
    | some reading_times => Except.ok (buildSummary sqrtQ events reading_times)

/-- The concentration profile of a successful summary response. -/
def profileOf : Except String Summary → Option Profile
  | Except.ok s => some s.concentration
  | Except.error _ => none

/-- Well-formed stored event per the data model: exactly one of the three
variants, carrying the required fields of that variant. -/
def WellFormedEvent (e : Event) : Prop :=
  (e.segment_id.isSome ∧ e.text_length.isSome ∧ e.reading_time_ms.isSome
      ∧ e.question_index = none ∧ e.exercise_id = none)
    ∨ (e.question_index.isSome ∧ e.reaction_time_ms.isSome ∧ e.is_correct.isSome
      ∧ e.segment_id = none ∧ e.exercise_id = none)
    ∨ (e.exercise_id.isSome ∧ e.total_time_ms.isSome
      ∧ e.segment_id = none ∧ e.question_index = none)

instance (e : Event) : Decidable (WellFormedEvent e) := by
  unfold WellFormedEvent; infer_instance

/-- Four ordered reaction events realising the drift scenario with times
200, 210, 600, 650. -/
def fourReactionEvents : List Event :=
  [ { question_index := some 0, reaction_time_ms := some 200, is_correct := some true },
    { question_index := some 1, reaction_time_ms := some 210, is_correct := some true },
    { question_index := some 2, reaction_time_ms := some 600, is_correct := some false },
    { question_index := some 3, reaction_time_ms := some 650, is_correct := some true } ]

/-- Code submission event of the typing-rate scenario: 120 final
characters, 20 starter characters, 20 seconds of typing. -/
def scenario4Event : Event :=
  { exercise_id := some "ex1", code_length := some 120, starter_code_length := some 20,
    typing_duration_ms := some 20000, total_time_ms := some 30000, is_correct := some true }

/-- A reading-classified event that lacks `reading_time_ms`. -/
def malformedReadingEvent : Event :=
  { segment_id := some 1, text_length := some 50 }

/-- A fully well-formed reading event. -/
def wellReadingEvent : Event :=
  { segment_id := some 1, text_length := some 50, reading_time_ms := some 1200 }

/-- A single well-formed reaction event, a session with no reading and no
code events. -/
def loneReactionEvent : Event :=
  { question_index := some 0, reaction_time_ms := some 300, is_correct := some true }

theorem normalize_inverse_mem (v : Option ℚ) (gl bh : ℚ) :
    0 ≤ normalize_inverse v gl bh ∧ normalize_inverse v gl bh ≤ 1 := by
  cases v with
  | none => norm_num [normalize_inverse]
  | some x =>
    by_cases h1 : x ≤ gl
    · norm_num [normalize_inverse, h1]
    · by_cases h2 : bh ≤ x
      · norm_num [normalize_inverse, h1, h2]
      · have hx1 : gl < x := lt_of_not_le h1
        have hx2 : x < bh := lt_of_not_le h2
        simp only [normalize_inverse, if_neg h1, if_neg h2]
        have hpos : 0 < bh - gl := by linarith
        have hr0 : 0 ≤ (x - gl) / (bh - gl) := div_nonneg (by linarith) hpos.le
        have hr1 : (x - gl) / (bh - gl) ≤ 1 := (div_le_one hpos).mpr (by linarith)
        constructor <;> linarith

theorem normalize_direct_mem (v : Option ℚ) (bl gh : ℚ) :
    0 ≤ normalize_direct v bl gh ∧ normalize_direct v bl gh ≤ 1 := by
  cases v with
  | none => norm_num [normalize_direct]
  | some x =>
    by_cases h1 : x ≤ bl
    · norm_num [normalize_direct, h1]
    · by_cases h2 : gh ≤ x
      · norm_num [normalize_direct, h1, h2]
      · have hx1 : bl < x := lt_of_not_le h1
        have hx2 : x < gh := lt_of_not_le h2
        simp only [normalize_direct, if_neg h1, if_neg h2]
        have hpos : 0 < gh - bl := by linarith
        have hr0 : 0 ≤ (x - bl) / (gh - bl) := div_nonneg (by linarith) hpos.le
        have hr1 : (x - bl) / (gh - bl) ≤ 1 := (div_le_one hpos).mpr (by linarith)
        constructor <;> linarith

theorem normalize_inverse_anti (gl bh : ℚ) {v w : ℚ} (hvw : v ≤ w) :
    normalize_inverse (some w) gl bh ≤ normalize_inverse (some v) gl bh := by
  by_cases hw1 : w ≤ gl
  · have hv1 : v ≤ gl := le_trans hvw hw1
    simp [normalize_inverse, hw1, hv1]
  · by_cases hw2 : bh ≤ w
    · have h0 : normalize_inverse (some w) gl bh = 0 := by
        simp [normalize_inverse, hw1, hw2]
      rw [h0]
      exact (normalize_inverse_mem (some v) gl bh).1
    · have hwg : gl < w := lt_of_not_le hw1
      have hwb : w < bh := lt_of_not_le hw2
      have hpos : 0 < bh - gl := by linarith
      have hwmid : normalize_inverse (some w) gl bh = 1 - (w - gl) / (bh - gl) := by
        simp [normalize_inverse, hw1, hw2]
      by_cases hv1 : v ≤ gl
      · have hv : normalize_inverse (some v) gl bh = 1 := by
          simp [normalize_inverse, hv1]
        rw [hv, hwmid]
        have : 0 ≤ (w - gl) / (bh - gl) := div_nonneg (by linarith) hpos.le
        linarith
      · have hv2 : ¬ bh ≤ v := by push_neg; linarith
        have hvmid : normalize_inverse (some v) gl bh = 1 - (v - gl) / (bh - gl) := by
          simp [normalize_inverse, hv1, hv2]
        rw [hvmid, hwmid]
        have hdd : (v - gl) / (bh - gl) ≤ (w - gl) / (bh - gl) :=
          (div_le_div_iff_of_pos_right hpos).mpr (by linarith)
        linarith

theorem normalize_direct_mono (bl gh : ℚ) {v w : ℚ} (hvw : v ≤ w) :
    normalize_direct (some v) bl gh ≤ normalize_direct (some w) bl gh := by
  by_cases hv1 : v ≤ bl
  · have h0 : normalize_direct (some v) bl gh = 0 := by
      simp [normalize_direct, hv1]
    rw [h0]
    exact (normalize_direct_mem (some w) bl gh).1
  · by_cases hv2 : gh ≤ v
    · have hw2 : gh ≤ w := le_trans hv2 hvw
      have hw1 : ¬ w ≤ bl := by push_neg at hv1 ⊢; linarith
      simp [normalize_direct, hv1, hv2, hw1, hw2]
    · have hvb : bl < v := lt_of_not_le hv1
      have hvg : v < gh := lt_of_not_le hv2
      have hpos : 0 < gh - bl := by linarith
      have hvmid : normalize_direct (some v) bl gh = (v - bl) / (gh - bl) := by
        simp [normalize_direct, hv1, hv2]
      have hw1 : ¬ w ≤ bl := by push_neg; linarith
      by_cases hw2 : gh ≤ w
      · have hw : normalize_direct (some w) bl gh = 1 := by
          simp [normalize_direct, hw1, hw2]
        rw [hw, hvmid]
        exact (div_le_one hpos).mpr (by linarith)
      · have hwmid : normalize_direct (some w) bl gh = (w - bl) / (gh - bl) := by
          simp [normalize_direct, hw1, hw2]
        rw [hvmid, hwmid]
        exact (div_le_div_iff_of_pos_right hpos).mpr (by linarith)

/-- Counterexample to C4 as stated: with range 0..1, input 0 is below
input 1 yet normalize_inverse strictly decreases (so it is not
non-decreasing) and normalize_direct strictly increases (so it is not
non-increasing): the directions in the claim are swapped. -/
theorem normalize_direction_counterexample :
    ((0:ℚ) ≤ 1 ∧ normalize_inverse (some 1) 0 1 < normalize_inverse (some 0) 0 1)
    ∧ ((0:ℚ) ≤ 1 ∧ normalize_direct (some 0) 0 1 < normalize_direct (some 1) 0 1) := by
  constructor <;> exact ⟨by norm_num, by norm_num [normalize_inverse, normalize_direct]⟩

/-- C4 (amended): normalize_inverse is non-increasing and normalize_direct
is non-decreasing in their input; both return a value in the interval 0..1
for every input and exactly 1/2 when the input is null. -/
theorem normalize_monotone_and_bounded (gl bh bl gh : ℚ) (v w : ℚ) (hvw : v ≤ w) :
    normalize_inverse (some w) gl bh ≤ normalize_inverse (some v) gl bh
    ∧ normalize_direct (some v) bl gh ≤ normalize_direct (some w) bl gh
    ∧ (0 ≤ normalize_inverse (some v) gl bh ∧ normalize_inverse (some v) gl bh ≤ 1)
    ∧ (0 ≤ normalize_direct (some v) bl gh ∧ normalize_direct (some v) bl gh ≤ 1)
    ∧ normalize_inverse none gl bh = 1/2
    ∧ normalize_direct none bl gh = 1/2 :=
  ⟨normalize_inverse_anti gl bh hvw, normalize_direct_mono bl gh hvw,
    normalize_inverse_mem (some v) gl bh, normalize_direct_mem (some v) bl gh, rfl, rfl⟩

/-- Witness for the amended C4 at concrete inputs. -/
theorem normalize_monotone_and_bounded_witness :
    ((1:ℚ) ≤ 3)
    ∧ normalize_inverse (some 3) 1 2 ≤ normalize_inverse (some 1) 1 2
    ∧ normalize_direct (some 1) 0 4 ≤ normalize_direct (some 3) 0 4
    ∧ normalize_inverse none 1 2 = 1/2 := by
  have h := normalize_monotone_and_bounded 1 2 0 4 1 3 (by norm_num)
  exact ⟨by norm_num, h.1, h.2.1, h.2.2.2.2.1⟩

/-- C9: safe_cv returns std divided by avg, except that a null avg, a null
std or a non-positive avg yields null; in particular a zero avg always
yields null and a null avg always yields null. -/
theorem safe_cv_spec (avg std : Option ℚ) :
    safe_cv none std = none
    ∧ safe_cv (some 0) std = none
    ∧ (∀ a, avg = some a → a ≤ 0 → safe_cv avg std = none)
    ∧ (∀ a s, avg = some a → std = some s → 0 < a → safe_cv avg std = some (s / a)) := by
  refine ⟨rfl, ?_, ?_, ?_⟩
  · cases std <;> simp [safe_cv]
  · rintro a rfl ha
    cases std <;> simp [safe_cv, ha]
  · rintro a s rfl rfl ha
    simp [safe_cv, not_le.mpr ha]

/-- Witness for C9 at concrete inputs. -/
theorem safe_cv_spec_witness :
    safe_cv (some (-2)) (some 3) = none ∧ safe_cv (some 4) (some 3) = some (3/4) :=
  ⟨(safe_cv_spec (some (-2)) (some 3)).2.2.1 (-2) rfl (by norm_num),
    (safe_cv_spec (some 4) (some 3)).2.2.2 4 3 rfl rfl (by norm_num)⟩

theorem detailSentences_eq (rd rx cd : ℚ) :
    detailSentences rd rx cd =
      if rd + 10 < rx ∧ rd + 10 < cd then [readingWeakMsg]
      else if rx + 10 < rd ∧ rx + 10 < cd then [reactionWeakMsg]
      else if cd + 10 < rd ∧ cd + 10 < rx then [codeWeakMsg]
      else [balancedMsg] := by
  unfold detailSentences
  by_cases c1 : rd + 10 < rx ∧ rd + 10 < cd
  · have nc2 : ¬(rx + 10 < rd ∧ rx + 10 < cd) := by rintro ⟨h, -⟩; linarith [c1.1]
    have nc3 : ¬(cd + 10 < rd ∧ cd + 10 < rx) := by rintro ⟨h, -⟩; linarith [c1.2]
    simp [c1, nc2, nc3]
  · by_cases c2 : rx + 10 < rd ∧ rx + 10 < cd
    · have nc3 : ¬(cd + 10 < rd ∧ cd + 10 < rx) := by rintro ⟨-, h⟩; linarith [c2.2]
      simp [c1, c2, nc3]
    · by_cases c3 : cd + 10 < rd ∧ cd + 10 < rx
      · simp [c1, c2, c3]
      · simp [c1, c2, c3]

theorem detailSentences_parts (rd rx cd : ℚ) :
    (detailSentences rd rx cd).length = 1
    ∧ (readingWeakMsg ∈ detailSentences rd rx cd ↔ rd + 10 < rx ∧ rd + 10 < cd)
    ∧ (reactionWeakMsg ∈ detailSentences rd rx cd ↔ rx + 10 < rd ∧ rx + 10 < cd)
    ∧ (codeWeakMsg ∈ detailSentences rd rx cd ↔ cd + 10 < rd ∧ cd + 10 < rx)
    ∧ (detailSentences rd rx cd = [balancedMsg] ↔
        ¬(rd + 10 < rx ∧ rd + 10 < cd) ∧ ¬(rx + 10 < rd ∧ rx + 10 < cd)
          ∧ ¬(cd + 10 < rd ∧ cd + 10 < rx)) := by
  simp only [detailSentences_eq]
  split_ifs with h1 h2 h3
  · have nc2 : ¬(rx + 10 < rd ∧ rx + 10 < cd) := by rintro ⟨h, -⟩; linarith [h1.1]
    have nc3 : ¬(cd + 10 < rd ∧ cd + 10 < rx) := by rintro ⟨h, -⟩; linarith [h1.2]
    refine ⟨rfl, by simp [h1], ?_, ?_, ?_⟩
    · simp [nc2, (by decide : ¬ (reactionWeakMsg = readingWeakMsg))]
    · simp [nc3, (by decide : ¬ (codeWeakMsg = readingWeakMsg))]
    · simp [h1, (by decide : ¬ (readingWeakMsg = balancedMsg))]
  · have nc3 : ¬(cd + 10 < rd ∧ cd + 10 < rx) := by rintro ⟨-, h⟩; linarith [h2.2]
    refine ⟨rfl, ?_, by simp [h2], ?_, ?_⟩
    · simp [h1, (by decide : ¬ (readingWeakMsg = reactionWeakMsg))]
    · simp [nc3, (by decide : ¬ (codeWeakMsg = reactionWeakMsg))]
    · simp [h2, (by decide : ¬ (reactionWeakMsg = balancedMsg))]
  · refine ⟨rfl, ?_, ?_, by simp [h3], ?_⟩
    · simp [h1, (by decide : ¬ (readingWeakMsg = codeWeakMsg))]
    · simp [h2, (by decide : ¬ (reactionWeakMsg = codeWeakMsg))]
    · simp [h3, (by decide : ¬ (codeWeakMsg = balancedMsg))]
  · refine ⟨rfl, ?_, ?_, ?_, by simp [h1, h2, h3]⟩
    · simp [h1, (by decide : ¬ (readingWeakMsg = balancedMsg))]
    · simp [h2, (by decide : ¬ (reactionWeakMsg = balancedMsg))]
    · simp [h3, (by decide : ¬ (codeWeakMsg = balancedMsg))]

/-- C6: the diagnostic list always holds exactly one sentence; each weak
task sentence appears exactly when that score trails both others by more
than 10 points; the balanced sentence appears exactly when no task
qualifies; and scores 90, 50, 55 produce the balanced sentence, not a
weak-task flag. -/
theorem detail_sentences_spec (rd rx cd : ℚ) :
    (detailSentences rd rx cd).length = 1
    ∧ (readingWeakMsg ∈ detailSentences rd rx cd ↔ rd + 10 < rx ∧ rd + 10 < cd)
    ∧ (reactionWeakMsg ∈ detailSentences rd rx cd ↔ rx + 10 < rd ∧ rx + 10 < cd)
    ∧ (codeWeakMsg ∈ detailSentences rd rx cd ↔ cd + 10 < rd ∧ cd + 10 < rx)
    ∧ (detailSentences rd rx cd = [balancedMsg] ↔
        ¬(rd + 10 < rx ∧ rd + 10 < cd) ∧ ¬(rx + 10 < rd ∧ rx + 10 < cd)
          ∧ ¬(cd + 10 < rd ∧ cd + 10 < rx))
    ∧ detailSentences 90 50 55 = [balancedMsg] := by
  obtain ⟨p1, p2, p3, p4, p5⟩ := detailSentences_parts rd rx cd
  exact ⟨p1, p2, p3, p4, p5, by rw [detailSentences_eq]; norm_num⟩

theorem foldl_min_spec (a : ℚ) (xs : List ℚ) :
    (xs.foldl min a = a ∨ xs.foldl min a ∈ xs)
    ∧ xs.foldl min a ≤ a ∧ ∀ y ∈ xs, xs.foldl min a ≤ y := by
  induction xs generalizing a with
  | nil => simp
  | cons x xs ih =>
    obtain ⟨hmem, hle, hall⟩ := ih (min a x)
    simp only [List.foldl_cons]
    refine ⟨?_, le_trans hle (min_le_left a x), ?_⟩
    · rcases hmem with h | h
      · rcases le_total a x with hax | hax
        · left; rw [h, min_eq_left hax]
        · right; rw [h, min_eq_right hax]; exact List.mem_cons_self x xs
      · right; exact List.mem_cons_of_mem x h
    · intro y hy
      rcases List.mem_cons.mp hy with rfl | hy2
      · exact le_trans hle (min_le_right a y)
      · exact hall y hy2

theorem foldl_max_spec (a : ℚ) (xs : List ℚ) :
    (xs.foldl max a = a ∨ xs.foldl max a ∈ xs)
    ∧ a ≤ xs.foldl max a ∧ ∀ y ∈ xs, y ≤ xs.foldl max a := by
  induction xs generalizing a with
  | nil => simp
  | cons x xs ih =>
    obtain ⟨hmem, hle, hall⟩ := ih (max a x)
    simp only [List.foldl_cons]
    refine ⟨?_, le_trans (le_max_left a x) hle, ?_⟩
    · rcases hmem with h | h
      · rcases le_total a x with hax | hax
        · right; rw [h, max_eq_right hax]; exact List.mem_cons_self x xs
        · left; rw [h, max_eq_left hax]
      · right; exact List.mem_cons_of_mem x h
    · intro y hy
      rcases List.mem_cons.mp hy with rfl | hy2
      · exact le_trans (le_max_right a y) hle
      · exact hall y hy2

theorem listMin_spec (values : List ℚ) (h : values ≠ []) :
    listMin values ∈ values ∧ ∀ y ∈ values, listMin values ≤ y := by
  cases values with
  | nil => exact absurd rfl h
  | cons x xs =>
    obtain ⟨hmem, hle, hall⟩ := foldl_min_spec x xs
    constructor
    · rcases hmem with h1 | h1
      · simp only [listMin, h1]; exact List.mem_cons_self x xs
      · simp only [listMin]; exact List.mem_cons_of_mem x h1
    · intro y hy
      rcases List.mem_cons.mp hy with rfl | hy2
      · simpa only [listMin] using hle
      · simpa only [listMin] using hall y hy2

theorem listMax_spec (values : List ℚ) (h : values ≠ []) :
    listMax values ∈ values ∧ ∀ y ∈ values, y ≤ listMax values := by
  cases values with
  | nil => exact absurd rfl h
  | cons x xs =>
    obtain ⟨hmem, hle, hall⟩ := foldl_max_spec x xs
    constructor
    · rcases hmem with h1 | h1
      · simp only [listMax, h1]; exact List.mem_cons_self x xs
      · simp only [listMax]; exact List.mem_cons_of_mem x h1
    · intro y hy
      rcases List.mem_cons.mp hy with rfl | hy2
      · simpa only [listMax] using hle
      · simpa only [listMax] using hall y hy2

/-- C3: compute_basic_stats returns count 0 and all-null statistics on the
empty sequence; count 1, avg = min = max = x and std exactly 0 on a
one-element sequence; and for two or more values the arithmetic mean, the
population standard deviation (the square root applied to the sum of
squared deviations divided by N, not N minus 1), and the least and
greatest of the values. -/
theorem compute_basic_stats_spec (sqrtQ : ℚ → ℚ) (values : List ℚ) :
    (compute_basic_stats sqrtQ values).count = values.length
    ∧ (values = [] → compute_basic_stats sqrtQ values =
        { count := 0, avg_ms := none, std_ms := none, min_ms := none, max_ms := none })
    ∧ (∀ x, values = [x] → compute_basic_stats sqrtQ values =
        { count := 1, avg_ms := some x, std_ms := some 0, min_ms := some x, max_ms := some x })
    ∧ (2 ≤ values.length →
        (compute_basic_stats sqrtQ values).avg_ms = some (values.sum / values.length)
        ∧ (compute_basic_stats sqrtQ values).std_ms
            = some (sqrtQ ((values.map fun x => (x - values.sum / values.length) ^ 2).sum
                / values.length))
        ∧ (∃ m, (compute_basic_stats sqrtQ values).min_ms = some m
            ∧ m ∈ values ∧ ∀ y ∈ values, m ≤ y)
        ∧ (∃ M, (compute_basic_stats sqrtQ values).max_ms = some M
            ∧ M ∈ values ∧ ∀ y ∈ values, y ≤ M)) := by
  refine ⟨?_, ?_, ?_, ?_⟩
  · by_cases h : values = []
    · simp [compute_basic_stats, h, emptyStats]
    · simp [compute_basic_stats, h]
  · rintro rfl
    simp [compute_basic_stats, emptyStats]
  · rintro x rfl
    simp [compute_basic_stats, emptyStats, mean, listMin, listMax]
  · intro h2
    have hne : values ≠ [] := by
      intro h; rw [h] at h2; simp at h2
    have hlt : 1 < values.length := lt_of_lt_of_le one_lt_two h2
    refine ⟨?_, ?_, ?_, ?_⟩
    · simp [compute_basic_stats, hne, mean]
    · simp [compute_basic_stats, hne, hlt, pstdev, pvariance, mean]
    · obtain ⟨hmem, hall⟩ := listMin_spec values hne
      exact ⟨listMin values, by simp [compute_basic_stats, hne], hmem, hall⟩
    · obtain ⟨hmem, hall⟩ := listMax_spec values hne
      exact ⟨listMax values, by simp [compute_basic_stats, hne], hmem, hall⟩

/-- Witness for C3: a two-element list, a singleton and the empty list at
concrete values. -/
theorem compute_basic_stats_spec_witness :
    2 ≤ ([2, 4] : List ℚ).length
    ∧ (compute_basic_stats (fun _ => 0) [2, 4]).avg_ms = some 3
    ∧ compute_basic_stats (fun _ => 0) [(7:ℚ)] =
        { count := 1, avg_ms := some 7, std_ms := some 0, min_ms := some 7, max_ms := some 7 }
    ∧ compute_basic_stats (fun _ => 0) ([] : List ℚ) =
        { count := 0, avg_ms := none, std_ms := none, min_ms := none, max_ms := none } := by
  refine ⟨by norm_num, ?_, ?_, ?_⟩
  · have h := ((compute_basic_stats_spec (fun _ => 0) ([2, 4] : List ℚ)).2.2.2 (by norm_num)).1
    rw [h]; norm_num
  · exact (compute_basic_stats_spec (fun _ => 0) [(7:ℚ)]).2.2.1 7 rfl
  · exact (compute_basic_stats_spec (fun _ => 0) ([] : List ℚ)).2.1 rfl

theorem trendComponent_cases (es : List Event) :
    trendComponent es = 1/2
    ∨ ∃ d, trendComponent es = normalize_inverse (some d) (1/10) (6/10) := by
  simp only [trendComponent]
  split_ifs
  · right; exact ⟨_, rfl⟩
  · left; rfl
  · left; rfl
  · left; rfl

theorem trendComponent_mem (es : List Event) :
    0 ≤ trendComponent es ∧ trendComponent es ≤ 1 := by
  rcases trendComponent_cases es with h | ⟨d, h⟩
  · rw [h]; norm_num
  · rw [h]; exact normalize_inverse_mem (some d) (1/10) (6/10)

theorem initiationStability_mem (sqrtQ : ℚ → ℚ) (code_events : List Event) :
    0 ≤ initiationStability sqrtQ code_events
    ∧ initiationStability sqrtQ code_events ≤ 1 := by
  simp only [initiationStability]
  split_ifs
  · exact normalize_inverse_mem _ 1500 6000
  · norm_num

theorem readingScoreOf_mem (rs : BasicStats) :
    0 ≤ readingScoreOf rs ∧ readingScoreOf rs ≤ 100 := by
  have h := normalize_inverse_mem (safe_cv rs.avg_ms rs.std_ms) (1/10) (7/10)
  unfold readingScoreOf
  constructor <;> linarith [h.1, h.2]

theorem reactionScoreOf_mem (xs : BasicStats) (reaction_events : List Event) :
    0 ≤ reactionScoreOf xs reaction_events ∧ reactionScoreOf xs reaction_events ≤ 100 := by
  have h1 := normalize_inverse_mem (safe_cv xs.avg_ms xs.std_ms) (15/100) (8/10)
  have h2 := normalize_direct_mem (reactionAccuracy reaction_events) (1/2) (9/10)
  have h3 := trendComponent_mem reaction_events
  unfold reactionScoreOf
  constructor <;> linarith [h1.1, h1.2, h2.1, h2.2, h3.1, h3.2]

theorem codeScoreOf_mem (sqrtQ : ℚ → ℚ) (cs : CodeSummary) (code_events : List Event) :
    0 ≤ codeScoreOf sqrtQ cs code_events ∧ codeScoreOf sqrtQ cs code_events ≤ 100 := by
  have h1 := normalize_direct_mem cs.success_rate (3/10) (9/10)
  have h2 := normalize_direct_mem cs.avg_typing_rate_chars_per_sec 2 12
  have h3 := initiationStability_mem sqrtQ code_events
  unfold codeScoreOf
  constructor <;> linarith [h1.1, h1.2, h2.1, h2.2, h3.1, h3.2]

/-- C1: the overall score is exactly 3/10 of the reading score plus 4/10 of
the reaction score plus 3/10 of the code score, and the overall score and
all three sub-scores lie in the interval 0..100, for every input the
profile computation can receive. -/
theorem overall_score_weighted_and_bounded (sqrtQ : ℚ → ℚ)
    (reading_stats reaction_stats : BasicStats) (reaction_events : List Event)
    (code_summary : CodeSummary) (code_events : List Event) :
    (compute_concentration_profile sqrtQ reading_stats reaction_stats reaction_events
          code_summary code_events).overall_score
      = 3/10 * (compute_concentration_profile sqrtQ reading_stats reaction_stats
            reaction_events code_summary code_events).reading_score
        + 4/10 * (compute_concentration_profile sqrtQ reading_stats reaction_stats
            reaction_events code_summary code_events).reaction_score
        + 3/10 * (compute_concentration_profile sqrtQ reading_stats reaction_stats
            reaction_events code_summary code_events).code_score
    ∧ (0 ≤ (compute_concentration_profile sqrtQ reading_stats reaction_stats
          reaction_events code_summary code_events).overall_score
        ∧ (compute_concentration_profile sqrtQ reading_stats reaction_stats
          reaction_events code_summary code_events).overall_score ≤ 100)
    ∧ (0 ≤ (compute_concentration_profile sqrtQ reading_stats reaction_stats
          reaction_events code_summary code_events).reading_score
        ∧ (compute_concentration_profile sqrtQ reading_stats reaction_stats
          reaction_events code_summary code_events).reading_score ≤ 100)
    ∧ (0 ≤ (compute_concentration_profile sqrtQ reading_stats reaction_stats
          reaction_events code_summary code_events).reaction_score
        ∧ (compute_concentration_profile sqrtQ reading_stats reaction_stats
          reaction_events code_summary code_events).reaction_score ≤ 100)
    ∧ (0 ≤ (compute_concentration_profile sqrtQ reading_stats reaction_stats
          reaction_events code_summary code_events).code_score
        ∧ (compute_concentration_profile sqrtQ reading_stats reaction_stats
          reaction_events code_summary code_events).code_score ≤ 100) := by
  have h1 := readingScoreOf_mem reading_stats
  have h2 := reactionScoreOf_mem reaction_stats reaction_events
  have h3 := codeScoreOf_mem sqrtQ code_summary code_events
  refine ⟨rfl, ⟨?_, ?_⟩, h1, h2, h3⟩
  · show (0:ℚ) ≤ 3/10 * readingScoreOf reading_stats
        + 4/10 * reactionScoreOf reaction_stats reaction_events
        + 3/10 * codeScoreOf sqrtQ code_summary code_events
    linarith [h1.1, h2.1, h3.1]
  · show 3/10 * readingScoreOf reading_stats
        + 4/10 * reactionScoreOf reaction_stats reaction_events
        + 3/10 * codeScoreOf sqrtQ code_summary code_events ≤ 100
    linarith [h1.2, h2.2, h3.2]

theorem insertByQKey_length (e : Event) (l : List Event) :
    (insertByQKey e l).length = l.length + 1 := by
  induction l with
  | nil => rfl
  | cons x xs ih =>
    by_cases h : qKey x ≤ qKey e
    · simp [insertByQKey, h, ih]
    · simp [insertByQKey, h]

theorem sortByQI_length (es : List Event) : (sortByQI es).length = es.length := by
  suffices h : ∀ acc : List Event,
      (es.foldl (fun acc e => insertByQKey e acc) acc).length = acc.length + es.length by
    simpa using h []
  induction es with
  | nil => intro acc; simp
  | cons x xs ih =>
    intro acc
    simp only [List.foldl_cons, List.length_cons]
    rw [ih (insertByQKey x acc), insertByQKey_length]
    omega

theorem timedValues_length_le (es : List Event) :
    (timedValues es).length ≤ es.length := by
  unfold timedValues
  calc ((sortByQI es).filterMap (fun e => e.reaction_time_ms)).length
      ≤ (sortByQI es).length := List.length_filterMap_le _ _
    _ = es.length := sortByQI_length es

theorem trend_component_branches (reaction_events : List Event) :
    ((timedValues reaction_events).length < 4 → trendComponent reaction_events = 1/2)
    ∧ (4 ≤ (timedValues reaction_events).length →
        (mean ((timedValues reaction_events).take ((timedValues reaction_events).length / 2))
            ≤ 0 → trendComponent reaction_events = 1/2)
        ∧ (0 < mean ((timedValues reaction_events).take
              ((timedValues reaction_events).length / 2)) →
            trendComponent reaction_events =
              normalize_inverse
                (some |mean ((timedValues reaction_events).drop
                      ((timedValues reaction_events).length / 2))
                    / mean ((timedValues reaction_events).take
                      ((timedValues reaction_events).length / 2)) - 1|)
                (1/10) (6/10))) := by
  constructor
  · intro hlt
    simp only [trendComponent]
    split_ifs with h1 h2 h3
    · exact absurd h2 (not_le.mpr hlt)
    · rfl
    · rfl
    · rfl
  · intro h4
    have hne : 4 ≤ reaction_events.length := le_trans h4 (timedValues_length_le _)
    have hmid2 : 2 ≤ (timedValues reaction_events).length / 2 := by omega
    have hmidlt : (timedValues reaction_events).length / 2
        < (timedValues reaction_events).length := Nat.div_lt_self (by omega) one_lt_two
    have htake : (timedValues reaction_events).take
        ((timedValues reaction_events).length / 2) ≠ [] := by
      intro hnil
      have hlen : ((timedValues reaction_events).take
          ((timedValues reaction_events).length / 2)).length = 0 := by rw [hnil]; rfl
      rw [List.length_take, min_eq_left hmidlt.le] at hlen
      omega
    have hdrop : (timedValues reaction_events).drop
        ((timedValues reaction_events).length / 2) ≠ [] := by
      intro hnil
      have hlen : ((timedValues reaction_events).drop
          ((timedValues reaction_events).length / 2)).length = 0 := by rw [hnil]; rfl
      rw [List.length_drop] at hlen
      omega
    constructor
    · intro hmean
      simp only [trendComponent]
      split_ifs with h1
      · exact absurd h1.2.2 (not_lt.mpr hmean)
      · rfl
    · intro hmean
      simp only [trendComponent]
      split_ifs with h1
      · rfl
      · exact absurd ⟨htake, hdrop, hmean⟩ h1

/-- C5: the trend component is the neutral 1/2 whenever fewer than four
reaction events carry a reaction time; with at least four timed values,
ordered by question index and split at the midpoint, it is 1/2 when the
first half mean is non-positive and otherwise the inverse normalization,
between 1/10 and 6/10, of the absolute drift of the second half mean over
the first half mean; and on the four ordered times 200, 210, 600, 650 it
is exactly 0. -/
theorem trend_component_spec (reaction_events : List Event) :
    ((timedValues reaction_events).length < 4 → trendComponent reaction_events = 1/2)
    ∧ (4 ≤ (timedValues reaction_events).length →
        (mean ((timedValues reaction_events).take ((timedValues reaction_events).length / 2))
            ≤ 0 → trendComponent reaction_events = 1/2)
        ∧ (0 < mean ((timedValues reaction_events).take
              ((timedValues reaction_events).length / 2)) →
            trendComponent reaction_events =
              normalize_inverse
                (some |mean ((timedValues reaction_events).drop
                      ((timedValues reaction_events).length / 2))
                    / mean ((timedValues reaction_events).take
                      ((timedValues reaction_events).length / 2)) - 1|)
                (1/10) (6/10)))
    ∧ trendComponent fourReactionEvents = 0 := by
  obtain ⟨p1, p2⟩ := trend_component_branches reaction_events
  refine ⟨p1, p2, ?_⟩
  have ht : timedValues fourReactionEvents = [200, 210, 600, 650] := by
    simp [timedValues, fourReactionEvents, sortByQI, insertByQKey, qKey]
  have hb := (trend_component_branches fourReactionEvents).2
  have h4 : 4 ≤ (timedValues fourReactionEvents).length := by rw [ht]; norm_num
  have hpos : 0 < mean ((timedValues fourReactionEvents).take
      ((timedValues fourReactionEvents).length / 2)) := by
    rw [ht]; norm_num [mean]
  have heq := (hb h4).2 hpos
  rw [heq, ht]
  show normalize_inverse (some |mean [600, 650] / mean [200, 210] - 1|) (1/10) (6/10) = 0
  have habs : |mean [600, 650] / mean [200, 210] - (1:ℚ)| = 84/41 := by
    rw [abs_of_nonneg] <;> norm_num [mean]
  rw [habs]
  norm_num [normalize_inverse]

/-- Witness for C5 at the four-event drift scenario. -/
theorem trend_component_spec_witness :
    4 ≤ (timedValues fourReactionEvents).length
    ∧ trendComponent fourReactionEvents =
        normalize_inverse
          (some |mean ((timedValues fourReactionEvents).drop
                ((timedValues fourReactionEvents).length / 2))
              / mean ((timedValues fourReactionEvents).take
                ((timedValues fourReactionEvents).length / 2)) - 1|)
          (1/10) (6/10) := by
  have ht : timedValues fourReactionEvents = [200, 210, 600, 650] := by
    simp [timedValues, fourReactionEvents, sortByQI, insertByQKey, qKey]
  have h4 : 4 ≤ (timedValues fourReactionEvents).length := by rw [ht]; norm_num
  refine ⟨h4, ?_⟩
  exact ((trend_component_spec fourReactionEvents).2.1 h4).2 (by rw [ht]; norm_num [mean])

/-- C7: a code submission contributes exactly one typing-rate sample, equal
to the character delta divided by the duration in seconds, precisely when
the typing duration is present and positive and the character delta is
strictly positive; any missing operand excludes the event; and the event
with code length 120, starter length 20 and duration 20000 ms contributes
exactly the rate 5, which becomes the aggregate average. -/
theorem typing_rate_inclusion (e : Event) (rest : List Event) :
    typingRates (e :: rest) = (typingRate e).toList ++ typingRates rest
    ∧ (∀ td cl sl, e.typing_duration_ms = some td → e.code_length = some cl →
        e.starter_code_length = some sl →
        typingRate e = if 0 < td ∧ 0 < cl - sl
          then some ((cl - sl) / (td / 1000)) else none)
    ∧ (e.typing_duration_ms = none ∨ e.code_length = none ∨ e.starter_code_length = none →
        typingRate e = none)
    ∧ typingRates [scenario4Event] = [5]
    ∧ (buildCodeSummary (fun _ => 0) [scenario4Event]).avg_typing_rate_chars_per_sec = some 5 := by
  have hconc : typingRates [scenario4Event] = [5] := by
    norm_num [typingRates, typingRate, scenario4Event, List.filterMap_cons]
  refine ⟨?_, ?_, ?_, hconc, ?_⟩
  · cases h : typingRate e <;> simp [typingRates, List.filterMap_cons, h]
  · intro td cl sl h1 h2 h3
    simp only [typingRate, h1, h2, h3]
    by_cases htd : 0 < td
    · by_cases hds : 0 < cl - sl
      · simp [htd, hds]
      · simp [htd, hds]
    · simp [htd]
  · rintro (h | h | h)
    · simp [typingRate, h]
    · cases htd : e.typing_duration_ms <;> simp [typingRate, h, htd]
    · cases htd : e.typing_duration_ms <;> cases hcl : e.code_length <;>
        simp [typingRate, h, htd, hcl]
  · norm_num [buildCodeSummary, hconc, compute_basic_stats, mean]

/-- Witness for C7 at the concrete scenario event. -/
theorem typing_rate_inclusion_witness :
    typingRate scenario4Event = some 5
    ∧ typingRates [scenario4Event] = [5] := by
  have h := typing_rate_inclusion scenario4Event []
  have h2 := h.2.1 20000 120 20 rfl rfl rfl
  constructor
  · rw [h2]; norm_num
  · exact h.2.2.2.1

theorem readAll_isSome (l : List Event) (h : ∀ e ∈ l, e.reading_time_ms.isSome = true) :
    ∃ ts, readAll l = some ts := by
  induction l with
  | nil => exact ⟨[], rfl⟩
  | cons e rest ih =>
    obtain ⟨ts, hts⟩ := ih (fun x hx => h x (List.mem_cons_of_mem e hx))
    obtain ⟨t, ht⟩ := Option.isSome_iff_exists.mp (h e (List.mem_cons_self e rest))
    exact ⟨t :: ts, by simp [readAll, ht, hts]⟩

theorem readAll_some_forall (l : List Event) (ts : List ℚ) (h : readAll l = some ts) :
    ∀ e ∈ l, e.reading_time_ms.isSome = true := by
  induction l generalizing ts with
  | nil => simp
  | cons e rest ih =>
    intro x hx
    cases ht : e.reading_time_ms with
    | none => simp [readAll, ht] at h
    | some t =>
      cases hrest : readAll rest with
      | none => simp [readAll, ht, hrest] at h
      | some ts2 =>
        rcases List.mem_cons.mp hx with rfl | hx2
        · simp [ht]
        · exact ih ts2 hrest x hx2

/-- Counterexample to C2 as stated: a session holding one reading event
without `reading_time_ms` makes the aggregation fail with the unhandled
`KeyError` of the unguarded extraction, instead of excluding the record. -/
theorem reading_event_missing_time_fails :
    get_summary (fun _ => 0) [malformedReadingEvent] = Except.error readingKeyError := by
  simp [get_summary, malformedReadingEvent, readAll]

/-- C2 (amended): on a non-empty session the aggregation succeeds exactly
when every reading-classified event carries `reading_time_ms`; missing or
null optional numeric fields on reaction and code events never make it
fail, but a reading event lacking `reading_time_ms` does. -/
theorem get_summary_ok_iff_reading_times_present (sqrtQ : ℚ → ℚ) (events : List Event)
    (hne : events ≠ []) :
    (get_summary sqrtQ events).isOk = true ↔
      ∀ e ∈ events, e.segment_id.isSome = true → e.reading_time_ms.isSome = true := by
  unfold get_summary
  rw [if_neg hne]
  constructor
  · intro hok e he hseg
    cases hro : readAll (events.filter fun e => e.segment_id.isSome) with
    | none => rw [hro] at hok; simp [Except.isOk, Except.toBool] at hok
    | some ts =>
      exact readAll_some_forall _ ts hro e (List.mem_filter.mpr ⟨he, hseg⟩)
  · intro hall
    obtain ⟨ts, hts⟩ := readAll_isSome (events.filter fun e => e.segment_id.isSome)
      (fun e he => hall e (List.mem_filter.mp he).1 (List.mem_filter.mp he).2)
    rw [hts]
    rfl

/-- Witness for the amended C2: a well-formed singleton session succeeds. -/
theorem get_summary_ok_iff_reading_times_present_witness :
    ([wellReadingEvent] ≠ ([] : List Event))
    ∧ (get_summary (fun _ => 0) [wellReadingEvent]).isOk = true := by
  refine ⟨by simp, ?_⟩
  exact (get_summary_ok_iff_reading_times_present (fun _ => 0) [wellReadingEvent]
    (by simp)).mpr (by simp [wellReadingEvent])

/-- C8: the summary computation returns the no-events error exactly when
the session event list is empty, and on any non-empty list of well-formed
events it returns a summary; the empty session is never defaulted to a
profile. -/
theorem get_summary_no_events_spec (sqrtQ : ℚ → ℚ) (events : List Event) :
    (get_summary sqrtQ events = Except.error noEventsDetail ↔ events = [])
    ∧ ((∀ e ∈ events, WellFormedEvent e) → events ≠ [] →
        (get_summary sqrtQ events).isOk = true) := by
  constructor
  · constructor
    · intro h
      by_contra hne
      unfold get_summary at h
      rw [if_neg hne] at h
      cases hro : readAll (events.filter fun e => e.segment_id.isSome) with
      | none =>
        rw [hro] at h
        injection h with h2
        exact absurd h2 (by decide)
      | some ts => rw [hro] at h; exact Except.noConfusion h
    · rintro rfl; rfl
  · intro hwf hne
    have hall : ∀ e ∈ events.filter (fun e => e.segment_id.isSome),
        e.reading_time_ms.isSome = true := by
      intro e he
      obtain ⟨hmem, hseg⟩ := List.mem_filter.mp he
      rcases hwf e hmem with ⟨-, -, hrt, -, -⟩ | ⟨-, -, -, hsegnone, -⟩ | ⟨-, -, hsegnone, -⟩
      · exact hrt
      · rw [hsegnone] at hseg; simp at hseg
      · rw [hsegnone] at hseg; simp at hseg
    obtain ⟨ts, hts⟩ := readAll_isSome _ hall
    unfold get_summary
    rw [if_neg hne, hts]
    rfl

/-- Witness for C8: the empty session errors and a well-formed singleton
session succeeds. -/
theorem get_summary_no_events_spec_witness :
    get_summary (fun _ => 0) ([] : List Event) = Except.error noEventsDetail
    ∧ (get_summary (fun _ => 0) [loneReactionEvent]).isOk = true := by
  constructor
  · exact (get_summary_no_events_spec (fun _ => 0) ([] : List Event)).1.mpr rfl
  · exact (get_summary_no_events_spec (fun _ => 0) [loneReactionEvent]).2
      (by simp [WellFormedEvent, loneReactionEvent]) (by simp)

/-- C10: a non-empty session still yields a concentration profile when one
task has no events, and the missing task scores the neutral 50: with no
reading events the reading coefficient of variation is null so the reading
score is 50, and with no code events all three code components are the
neutral 1/2 so the code score is 50. -/
theorem missing_task_neutral_score (sqrtQ : ℚ → ℚ) (events : List Event) (hne : events ≠ [])
    (hrt : ∀ e ∈ events, e.segment_id.isSome = true → e.reading_time_ms.isSome = true) :
    (profileOf (get_summary sqrtQ events)).isSome = true
    ∧ ((∀ e ∈ events, e.segment_id = none) →
        (profileOf (get_summary sqrtQ events)).map Profile.reading_score = some 50)
    ∧ ((∀ e ∈ events, e.exercise_id = none) →
        (profileOf (get_summary sqrtQ events)).map Profile.code_score = some 50) := by
  obtain ⟨ts, hts⟩ := readAll_isSome (events.filter fun e => e.segment_id.isSome)
    (fun e he => hrt e (List.mem_filter.mp he).1 (List.mem_filter.mp he).2)
  have hgs : get_summary sqrtQ events = Except.ok (buildSummary sqrtQ events ts) := by
    unfold get_summary
    rw [if_neg hne, hts]
  refine ⟨by rw [hgs]; rfl, ?_, ?_⟩
  · intro hseg
    have hfil : events.filter (fun e => e.segment_id.isSome) = [] :=
      List.filter_eq_nil_iff.mpr (fun e he => by simp [hseg e he])
    rw [hfil] at hts
    have hts0 : ts = [] := by simpa [readAll] using hts.symm
    subst hts0
    rw [hgs]
    show some (readingScoreOf (compute_basic_stats sqrtQ [])) = some 50
    norm_num [readingScoreOf, compute_basic_stats, emptyStats, safe_cv, normalize_inverse]
  · intro hex
    have hfil : events.filter (fun e => e.exercise_id.isSome) = [] :=
      List.filter_eq_nil_iff.mpr (fun e he => by simp [hex e he])
    rw [hgs]
    show some (codeScoreOf sqrtQ
        (buildCodeSummary sqrtQ (events.filter fun e => e.exercise_id.isSome))
        (events.filter fun e => e.exercise_id.isSome)) = some 50
    rw [hfil]
    norm_num [codeScoreOf, buildCodeSummary, initiationStability, normalize_direct]

/-- Witness for C10: a session holding one reaction event and nothing else
scores the neutral 50 on both the reading and the code components. -/
theorem missing_task_neutral_score_witness :
    (profileOf (get_summary (fun _ => 0) [loneReactionEvent])).map Profile.reading_score
        = some 50
    ∧ (profileOf (get_summary (fun _ => 0) [loneReactionEvent])).map Profile.code_score
        = some 50 := by
  have h := missing_task_neutral_score (fun _ => 0) [loneReactionEvent] (by simp)
    (by simp [loneReactionEvent])
  exact ⟨h.2.1 (by simp [loneReactionEvent]), h.2.2 (by simp [loneReactionEvent])⟩

end AttentionDrift
